import Mathlib

/-!
Shallow embedding of the DSDV routing protocol engine implemented in
`src/routing/dsdv/dsdv.py` (UavNetSim-v1), together with theorems about its
dissemination, reception, acknowledgement and waiting-list behaviour.

Simulated time stamps, packet lengths and node identifiers are natural
numbers (the simulator uses microsecond integers for time).  External
collaborators whose implementation is not part of the sources (the
routing-table storage `DsdvRoutingTable`, the metrics aggregator, the drone's
queue helpers) are modelled from the specification; each such definition says
so in its doc comment.  Every handler additionally returns a trace of
`Event`s recording, in source order, the observable interactions it performs
(merges, queue puts, unicasts, timer interrupts, timeouts at suspension
points), so that counting and ordering properties can be stated.
-/

namespace Dsdv

/-- Configuration constants consumed from `utils.config`; their concrete
values never matter for the properties proved here. -/
structure Config where
  HELLO_PACKET_LENGTH : Nat
  ACK_PACKET_LENGTH : Nat
  SIFS_DURATION : Nat
  BIT_RATE : Nat
  ENTRY_LIFETIME : Nat
deriving Repr

/-- One row of the DSDV routing table.  In the Python source a row is the
list `[next_hop, metric, seq_num, updated_time]`; index 2 (the one bumped by
`broadcast_hello_packet`) is the sequence number. -/
structure RTEntry where
  nextHop : Nat
  metric : Nat
  seqNum : Nat
  updatedTime : Nat
deriving DecidableEq, Repr

/-- The keyed structure `dest_id -> entry` of
`DsdvRoutingTable.routing_table`, as an association list. -/
abbrev RoutingTable := List (Nat × RTEntry)

/-- Lookup of a key in an association list (Python dict read). -/
def alookup (k : Nat) : RoutingTable → Option RTEntry
  | [] => none
  | kv :: rest => if kv.1 = k then some kv.2 else alookup k rest

/-- Update the value stored under a key, when present (Python dict item
mutation; a missing key would be a `KeyError` in the source and is left
unchanged here). -/
def aupdate (k : Nat) (f : RTEntry → RTEntry) : RoutingTable → RoutingTable
  | [] => []
  | kv :: rest => if kv.1 = k then (kv.1, f kv.2) :: rest else kv :: aupdate k f rest

/-- Kind of a DSDV hello advertisement (`packet_type` in the source). -/
inductive HelloKind
  | periodic
  | immediate
deriving DecidableEq, Repr

/-- `DsdvHelloPacket`: a routing-table advertisement.  `routing_table` is the
snapshot carried by the packet. -/
structure DsdvHelloPacket where
  srcDroneId : Nat
  creationTime : Nat
  packetId : Nat
  packetLength : Nat
  type : HelloKind
  routing_table : RoutingTable
  channelId : Nat
  transmissionMode : Nat
deriving DecidableEq, Repr

/-- `DataPacket` (from `entities.packet`): the fields the DSDV engine reads. -/
structure DataPacket where
  packetId : Nat
  srcDroneId : Nat
  dstDroneId : Nat
  creationTime : Nat
  deadline : Nat
  nextHopId : Nat
  firstAttemptTime : Nat
  channelId : Nat
  packetLength : Nat
deriving DecidableEq, Repr

/-- `AckPacket`: carries a copy of the acknowledged data packet. -/
structure AckPacket where
  packetId : Nat
  srcDroneId : Nat
  dstDroneId : Nat
  ackPacket : DataPacket
  channelId : Nat
  packetLength : Nat
  ttl : Nat
deriving DecidableEq, Repr

/-- Message kind of a virtual-force neighbor-discovery packet. -/
inductive VfMsgKind
  | hello
  | ack
deriving DecidableEq, Repr

/-- `VfPacket` of the separate virtual-force mobility protocol, merely
observed by this engine. -/
structure VfPacket where
  srcDroneId : Nat
  creationTime : Nat
  packetId : Nat
  packetLength : Nat
  msgType : VfMsgKind
  channelId : Nat
deriving DecidableEq, Repr

/-- The inbound-packet classes `packet_reception` dispatches on
(`isinstance` chain in the source). -/
inductive NetPacket
  | hello (p : DsdvHelloPacket)
  | data (p : DataPacket)
  | ack (p : AckPacket)
  | vf (p : VfPacket)
deriving DecidableEq, Repr

/-- Simulation-wide shared state: the virtual clock, the global id counters
of `utils.config` and the metrics aggregator's fields read or written by this
engine. -/
structure Sim where
  now : Nat
  GL_ID_HELLO_PACKET : Nat
  GL_ID_ACK_PACKET : Nat
  GL_ID_VF_PACKET : Nat
  control_packet_num : Nat
  datapacket_arrived : List Nat
  mac_delay : List Nat
deriving Repr

/-- Per-node state visible to the DSDV engine: the node's identifier, its
routing table, the processed-update memo, the bounded outgoing queue, the
sleep flag, the waiting list, the channel the assigner hands out, and the
MAC layer's await-ack bookkeeping (finished flags and pending/triggered
status of the wait processes, keyed by the string key the source builds). -/
structure DsdvState where
  myId : Nat
  routing_table : RoutingTable
  processed_hello_packet : List Nat
  transmitting_queue : List NetPacket
  max_queue_size : Nat
  sleep : Bool
  waiting_list : List DataPacket
  channel_assign : Nat
  wait_ack_process_finish : String → Nat
  wait_ack_process_triggered : String → Bool

/-- Observable interactions of a handler, recorded in source order. -/
inductive Event
  | updateItem (pid : Nat)
  | recordProcessed (pid : Nat)
  | broadcast (p : DsdvHelloPacket)
  | creditDelivery (pid : Nat)
  | timeout (d : Nat)
  | unicastAck (a : AckPacket) (dst : Nat)
  | receiveSignal (d : Nat)
  | enqueueForward (p : DataPacket)
  | setFinish (key : String)
  | interruptTimer (key : String)
  | addNeighbor (pid : Nat)
  | vfReply (p : VfPacket)
deriving DecidableEq, Repr

/-- Modelled from the spec: `DsdvRoutingTable.has_entry` (the routing-table
collaborator `routing/dsdv/dsdv_routing_table.py` is absent from the
sources) resolves the next hop for a destination, with the node's own
identifier as the sentinel meaning "no known route". -/
def has_entry (myId : Nat) (table : RoutingTable) (dst : Nat) : Nat :=
  match alookup dst table with
  | some e => e.nextHop
  | none => myId

/-- Modelled from the spec: `DsdvRoutingTable.update_item` merges one entry
of an advertisement's snapshot into the local table — a fresher (strictly
higher-sequence) remote entry replaces or creates the local one, routed
through the advertising node.  Per the spec's data-model invariant the
node's own entry is mutated only by the engine's own-entry bump, so the
merge leaves it untouched. -/
def mergeEntry (myId srcId now : Nat) (table : RoutingTable) (kv : Nat × RTEntry) :
    RoutingTable :=
  if kv.1 = myId then table
  else
    match alookup kv.1 table with
    | some cur =>
      if cur.seqNum < kv.2.seqNum then
        aupdate kv.1 (fun _ => ⟨srcId, kv.2.metric + 1, kv.2.seqNum, now⟩) table
      else table
    | none => table ++ [(kv.1, ⟨srcId, kv.2.metric + 1, kv.2.seqNum, now⟩)]

/-- Modelled from the spec: `DsdvRoutingTable.update_item` merges a whole
advertisement snapshot into the local table (see `mergeEntry`). -/
def update_item (myId : Nat) (table : RoutingTable) (pkt : DsdvHelloPacket) (now : Nat) :
    RoutingTable :=
  pkt.routing_table.foldl (mergeEntry myId pkt.srcDroneId now) table

/-- Modelled from the spec: one entry's part of `DsdvRoutingTable.purge` —
a stale neighbor entry (no update for longer than the entry lifetime, not
already marked) is invalidated with an odd, incremented sequence number and
the own-id no-route sentinel as next hop; the node's own entry is never
aged.  The boolean reports whether this entry was invalidated. -/
def purgeOne (cfg : Config) (myId now : Nat) (kv : Nat × RTEntry) :
    (Nat × RTEntry) × Bool :=
  if kv.1 ≠ myId ∧ kv.2.updatedTime + cfg.ENTRY_LIFETIME < now ∧ kv.2.seqNum % 2 = 0 then
    ((kv.1, ⟨myId, kv.2.metric, kv.2.seqNum + 1, kv.2.updatedTime⟩), true)
  else (kv, false)

/-- Modelled from the spec: `DsdvRoutingTable.purge` ages out stale neighbor
entries and reports whether any entry was invalidated. -/
def purge (cfg : Config) (myId now : Nat) (table : RoutingTable) :
    RoutingTable × Bool :=
  (table.map (fun kv => (purgeOne cfg myId now kv).1),
   table.any (fun kv => (purgeOne cfg myId now kv).2))

/-- Modelled from the spec: the metrics collaborator's `calculate_metrics`
credits the delivery and records the packet id in the delivered-packet dedup
set `datapacket_arrived`. -/
def calculate_metrics (sim : Sim) (p : DataPacket) : Sim :=
  { sim with datapacket_arrived := sim.datapacket_arrived ++ [p.packetId] }

/-- Modelled from the spec: `Drone.remove_from_queue` (the drone class is
absent from the sources) removes the acknowledged data packet from the
node's outgoing structures. -/
def remove_from_queue (queue : List NetPacket) (pkt : DataPacket) : List NetPacket :=
  queue.filter (fun q =>
    match q with
    | NetPacket.data d => d.packetId != pkt.packetId
    | _ => true)

/-- The key the source builds with
`''.join(['wait_ack', str(self.my_drone.identifier), '_', str(packet_id)])`. -/
def waitAckKey (myId pid : Nat) : String :=
  "wait_ack" ++ toString myId ++ "_" ++ toString pid

/-- `Dsdv.next_hop_selection`: single lookup against the routing table; no
route exists exactly when the resolved next hop is the node itself, and the
`enquire` component is the constant `false` (purely proactive protocol).
The source compares with Python `is`, which on the small integer
identifiers used for drones coincides with equality. -/
def next_hop_selection (st : DsdvState) (packet : DataPacket) :
    Bool × DataPacket × Bool :=
  let enquire := false
  let best_next_hop_id := has_entry st.myId st.routing_table packet.dstDroneId
  if best_next_hop_id = st.myId then
    (false, packet, enquire)
  else
    (true, { packet with nextHopId := best_next_hop_id }, enquire)

/-- `Dsdv.broadcast_hello_packet`: bump the global hello-id counter, add 2 to
the node's own sequence number, build a periodic advertisement carrying the
current table, count it as a control packet and put it on the outgoing
queue. -/
def broadcast_hello_packet (cfg : Config) (sim : Sim) (st : DsdvState) :
    Sim × DsdvState :=
  let sim1 := { sim with GL_ID_HELLO_PACKET := sim.GL_ID_HELLO_PACKET + 1 }
  let rt := aupdate st.myId (fun e => { e with seqNum := e.seqNum + 2 }) st.routing_table
  let hello_pkd : DsdvHelloPacket :=
    { srcDroneId := st.myId,
      creationTime := sim1.now,
      packetId := sim1.GL_ID_HELLO_PACKET,
      packetLength := cfg.HELLO_PACKET_LENGTH,
      type := HelloKind.periodic,
      routing_table := rt,
      channelId := st.channel_assign,
      transmissionMode := 1 }
  ({ sim1 with control_packet_num := sim1.control_packet_num + 1 },
   { st with routing_table := rt,
             transmitting_queue := st.transmitting_queue ++ [NetPacket.hello hello_pkd] })

/-- One period of `Dsdv.detect_broken_link_periodically`: purge the table;
if some entry was invalidated, flood an immediate advertisement carrying the
post-purge table. -/
def detect_broken_link_step (cfg : Config) (sim : Sim) (st : DsdvState) :
    Sim × DsdvState :=
  let pr := purge cfg st.myId sim.now st.routing_table
  let st1 := { st with routing_table := pr.1 }
  if pr.2 then
    let sim1 := { sim with GL_ID_HELLO_PACKET := sim.GL_ID_HELLO_PACKET + 1 }
    let hello_pkd : DsdvHelloPacket :=
      { srcDroneId := st1.myId,
        creationTime := sim1.now,
        packetId := sim1.GL_ID_HELLO_PACKET,
        packetLength := cfg.HELLO_PACKET_LENGTH,
        type := HelloKind.immediate,
        routing_table := st1.routing_table,
        channelId := st1.channel_assign,
        transmissionMode := 1 }
    ({ sim1 with control_packet_num := sim1.control_packet_num + 1 },
     { st1 with transmitting_queue := st1.transmitting_queue ++ [NetPacket.hello hello_pkd] })
  else (sim, st1)

/-- `Dsdv.packet_reception`: the network-layer reception state machine.
Dispatches on the inbound packet's class and returns the updated simulator
state, the updated node state and the trace of observable interactions, in
source order.  The `yield env.timeout(...)` suspension points of the source
appear as `Event.timeout` entries. -/
def packet_reception (cfg : Config) (sim : Sim) (st : DsdvState)
    (packet : NetPacket) (src_drone_id : Nat) : Sim × DsdvState × List Event :=
  let current_time := sim.now
  match packet with
  | NetPacket.hello p =>
    match p.type with
    | HelloKind.periodic =>
      (sim,
       { st with routing_table := update_item st.myId st.routing_table p current_time },
       [Event.updateItem p.packetId])
    | HelloKind.immediate =>
      let st1 := { st with routing_table := update_item st.myId st.routing_table p current_time }
      let packet_id := p.packetId
      if packet_id ∈ st1.processed_hello_packet then
        (sim, st1, [Event.updateItem p.packetId])
      else
        let st2 := { st1 with processed_hello_packet := st1.processed_hello_packet ++ [packet_id] }
        let hello_pkd : DsdvHelloPacket :=
          { srcDroneId := st2.myId,
            creationTime := sim.now,
            packetId := packet_id,
            packetLength := cfg.HELLO_PACKET_LENGTH,
            type := HelloKind.immediate,
            routing_table := st2.routing_table,
            channelId := st2.channel_assign,
            transmissionMode := 1 }
        ({ sim with control_packet_num := sim.control_packet_num + 1 },
         { st2 with transmitting_queue := st2.transmitting_queue ++ [NetPacket.hello hello_pkd] },
         [Event.updateItem p.packetId, Event.recordProcessed packet_id,
          Event.broadcast hello_pkd])
  | NetPacket.data p =>
    let packet_copy := p
    if packet_copy.dstDroneId = st.myId then
      let sim1 :=
        if packet_copy.packetId ∈ sim.datapacket_arrived then sim
        else calculate_metrics sim packet_copy
      let ev1 : List Event :=
        if packet_copy.packetId ∈ sim.datapacket_arrived then []
        else [Event.creditDelivery packet_copy.packetId]
      let sim2 := { sim1 with GL_ID_ACK_PACKET := sim1.GL_ID_ACK_PACKET + 1 }
      let ack_packet : AckPacket :=
        { packetId := sim2.GL_ID_ACK_PACKET,
          srcDroneId := st.myId,
          dstDroneId := src_drone_id,
          ackPacket := packet_copy,
          channelId := packet_copy.channelId,
          packetLength := cfg.ACK_PACKET_LENGTH,
          ttl := 0 }
      if st.sleep = false then
        let ack_sent := { ack_packet with ttl := ack_packet.ttl + 1 }
        (sim2, st,
         ev1 ++ [Event.timeout cfg.SIFS_DURATION,
                 Event.unicastAck ack_sent src_drone_id,
                 Event.timeout (ack_sent.packetLength * 1000000 / cfg.BIT_RATE),
                 Event.receiveSignal src_drone_id])
      else
        (sim2, st, ev1 ++ [Event.timeout cfg.SIFS_DURATION])
    else
      if st.transmitting_queue.length < st.max_queue_size then
        let st1 := { st with transmitting_queue := st.transmitting_queue ++ [NetPacket.data packet_copy] }
        let sim1 := { sim with GL_ID_ACK_PACKET := sim.GL_ID_ACK_PACKET + 1 }
        let ack_packet : AckPacket :=
          { packetId := sim1.GL_ID_ACK_PACKET,
            srcDroneId := st.myId,
            dstDroneId := src_drone_id,
            ackPacket := packet_copy,
            channelId := packet_copy.channelId,
            packetLength := cfg.ACK_PACKET_LENGTH,
            ttl := 0 }
        if st.sleep = false then
          let ack_sent := { ack_packet with ttl := ack_packet.ttl + 1 }
          (sim1, st1,
           [Event.enqueueForward packet_copy,
            Event.timeout cfg.SIFS_DURATION,
            Event.unicastAck ack_sent src_drone_id,
            Event.timeout (ack_sent.packetLength * 1000000 / cfg.BIT_RATE),
            Event.receiveSignal src_drone_id])
        else
          (sim1, st1, [Event.enqueueForward packet_copy, Event.timeout cfg.SIFS_DURATION])
      else (sim, st, [])
  | NetPacket.ack p =>
    let data_packet_acked := p.ackPacket
    let sim1 := { sim with
      mac_delay := sim.mac_delay ++ [(sim.now - data_packet_acked.firstAttemptTime) / 1000] }
    let st1 := { st with
      transmitting_queue := remove_from_queue st.transmitting_queue data_packet_acked }
    let key2 := waitAckKey st.myId data_packet_acked.packetId
    if st1.wait_ack_process_finish key2 = 0 then
      if st1.wait_ack_process_triggered key2 = false then
        (sim1,
         { st1 with wait_ack_process_finish := Function.update st1.wait_ack_process_finish key2 1 },
         [Event.setFinish key2, Event.interruptTimer key2])
      else (sim1, st1, [])
    else (sim1, st1, [])
  | NetPacket.vf p =>
    let ev0 := [Event.addNeighbor p.packetId]
    match p.msgType with
    | VfMsgKind.hello =>
      let sim1 := { sim with GL_ID_VF_PACKET := sim.GL_ID_VF_PACKET + 1 }
      let ack_packet : VfPacket :=
        { srcDroneId := st.myId,
          creationTime := sim1.now,
          packetId := sim1.GL_ID_VF_PACKET,
          packetLength := cfg.HELLO_PACKET_LENGTH,
          msgType := VfMsgKind.ack,
          channelId := p.channelId }
      (sim1,
       { st with transmitting_queue := st.transmitting_queue ++ [NetPacket.vf ack_packet] },
       ev0 ++ [Event.vfReply ack_packet])
    | VfMsgKind.ack => (sim, st, ev0)

/-- What happened to one examined waiting-list packet during a sweep. -/
inductive SweepAction
  | drop
  | promote
  | keep
deriving DecidableEq, Repr

/-- The body of the `for waiting_pkd in waiting_list` loop of
`Dsdv.check_waiting_list`, with Python's iteration semantics made explicit:
the loop walks an index `i` that advances by one per iteration while
`list.remove` (identity-based removal of the element just examined, hence
removal at index `i`) shrinks the list in place, so a removal makes the
element that slid into position `i` be skipped.  In the promote branch the
source's `next_hop_selection` mutates the packet's next-hop field in place
before the same object is enqueued.  `fuel` only bounds the recursion; with
`fuel = length` at entry it never runs out before `i` leaves the list. -/
def sweepAux (now : Nat) : Nat → DsdvState → Nat →
    DsdvState × List (DataPacket × SweepAction)
  | 0, st, _ => (st, [])
  | fuel + 1, st, i =>
    if h : i < st.waiting_list.length then
      let waiting_pkd := st.waiting_list.get ⟨i, h⟩
      if now > waiting_pkd.creationTime + waiting_pkd.deadline then
        let r := sweepAux now fuel
          { st with waiting_list := st.waiting_list.eraseIdx i } (i + 1)
        (r.1, (waiting_pkd, SweepAction.drop) :: r.2)
      else
        let sel := next_hop_selection st waiting_pkd
        if sel.1 then
          let r := sweepAux now fuel
            { st with transmitting_queue := st.transmitting_queue ++ [NetPacket.data sel.2.1],
                      waiting_list := st.waiting_list.eraseIdx i } (i + 1)
          (r.1, (waiting_pkd, SweepAction.promote) :: r.2)
        else
          let r := sweepAux now fuel st (i + 1)
          (r.1, (waiting_pkd, SweepAction.keep) :: r.2)
    else (st, [])

/-- One period of `Dsdv.check_waiting_list`: if the node sleeps the task
terminates without sweeping, otherwise the whole waiting list is swept once
(from index 0, with enough fuel for every iteration). -/
def check_waiting_list_pass (st : DsdvState) (now : Nat) :
    DsdvState × List (DataPacket × SweepAction) :=
  if st.sleep then (st, [])
  else sweepAux now st.waiting_list.length st 0

/-- The operations of this engine that can touch a node's state, as
scheduled by the simulator: a periodic hello broadcast, one period of the
broken-link detector, reception of an inbound packet, one waiting-list
sweep period, and the passage of virtual time. -/
inductive Op
  | broadcastHello
  | detectBroken
  | recv (p : NetPacket) (src : Nat)
  | sweep
  | tick (d : Nat)

/-- Apply one engine operation to the simulator/node state pair. -/
def applyOp (cfg : Config) (s : Sim × DsdvState) : Op → Sim × DsdvState
  | Op.broadcastHello => broadcast_hello_packet cfg s.1 s.2
  | Op.detectBroken => detect_broken_link_step cfg s.1 s.2
  | Op.recv p src =>
    let r := packet_reception cfg s.1 s.2 p src
    (r.1, r.2.1)
  | Op.sweep => (s.1, (check_waiting_list_pass s.2 s.1.now).1)
  | Op.tick d => ({ s.1 with now := s.1.now + d }, s.2)

/-- Run a sequence of engine operations. -/
def runOps (cfg : Config) (s : Sim × DsdvState) : List Op → Sim × DsdvState
  | [] => s
  | op :: ops => runOps cfg (applyOp cfg s op) ops

/-- The node's own routing-table entry. -/
def ownEntry (st : DsdvState) : Option RTEntry :=
  alookup st.myId st.routing_table

/-- The node's own sequence number (0 when the entry is absent, which the
collaborator's constructor never produces). -/
def ownSeq (st : DsdvState) : Nat :=
  match ownEntry st with
  | some e => e.seqNum
  | none => 0

/-- Modelled from the spec: the `DsdvRoutingTable` constructor seeds the
table with the node's own entry (next hop itself, metric 0, even sequence
number 0). -/
def DsdvRoutingTable.init (myId now : Nat) : RoutingTable :=
  [(myId, ⟨myId, 0, 0, now⟩)]

/-- Recognizer for table-merge events. -/
def isUpdateEv : Event → Bool
  | Event.updateItem _ => true
  | _ => false

/-- Recognizer for hello re-broadcast (queue put of a hello) events. -/
def isBroadcastEv : Event → Bool
  | Event.broadcast _ => true
  | _ => false

/-- Recognizer for delivery-crediting events. -/
def isCreditEv : Event → Bool
  | Event.creditDelivery _ => true
  | _ => false

/-- Recognizer for acknowledgement unicast events. -/
def isAckEv : Event → Bool
  | Event.unicastAck _ _ => true
  | _ => false

/-- Recognizer for await-ack interrupt events. -/
def isInterruptEv : Event → Bool
  | Event.interruptTimer _ => true
  | _ => false

/-- Number of events of a given kind in a trace. -/
def countEv (f : Event → Bool) (tr : List Event) : Nat :=
  (tr.filter f).length

/-- The hello packets a trace broadcasts. -/
def broadcastPackets (tr : List Event) : List DsdvHelloPacket :=
  tr.filterMap (fun e =>
    match e with
    | Event.broadcast b => some b
    | _ => none)

/-- Sample configuration for concrete evaluations. -/
def cfg0 : Config :=
  { HELLO_PACKET_LENGTH := 100, ACK_PACKET_LENGTH := 50, SIFS_DURATION := 1000,
    BIT_RATE := 2000000, ENTRY_LIFETIME := 500000 }

/-- Sample simulator state at virtual time 7. -/
def sim0 : Sim :=
  { now := 7, GL_ID_HELLO_PACKET := 0, GL_ID_ACK_PACKET := 0, GL_ID_VF_PACKET := 0,
    control_packet_num := 0, datapacket_arrived := [], mac_delay := [] }

/-- Sample node state of node 2 with a freshly initialised table. -/
def st0 : DsdvState :=
  { myId := 2, routing_table := DsdvRoutingTable.init 2 0, processed_hello_packet := [],
    transmitting_queue := [], max_queue_size := 10, sleep := false, waiting_list := [],
    channel_assign := 0, wait_ack_process_finish := fun _ => 0,
    wait_ack_process_triggered := fun _ => false }

/-- Sample immediate advertisement from node 1, created at time 5 with id 9. -/
def p0 : DsdvHelloPacket :=
  { srcDroneId := 1, creationTime := 5, packetId := 9, packetLength := 100,
    type := HelloKind.immediate, routing_table := [(1, ⟨1, 0, 6, 4⟩)], channelId := 0,
    transmissionMode := 1 }

/-- Sample periodic advertisement, otherwise like `p0`. -/
def pPer : DsdvHelloPacket :=
  { p0 with type := HelloKind.periodic }

/-- Sample waiting data packet (created at 0, deadline 10, so expired at 100). -/
def q1 : DataPacket :=
  { packetId := 1, srcDroneId := 0, dstDroneId := 9, creationTime := 0, deadline := 10,
    nextHopId := 0, firstAttemptTime := 0, channelId := 0, packetLength := 500 }

/-- Second sample waiting packet, also expired at 100. -/
def q2 : DataPacket :=
  { q1 with packetId := 2 }

/-- Claim C4: `next_hop_selection` reports no route exactly when the table's
resolved next hop for the packet's destination is the node's own identifier;
when a route exists the packet is annotated with that next hop; the enquire
component is always `false` (no reactive query). -/
theorem next_hop_selection_no_route_iff (st : DsdvState) (p : DataPacket) :
    ((next_hop_selection st p).1 = false ↔
       has_entry st.myId st.routing_table p.dstDroneId = st.myId)
    ∧ ((next_hop_selection st p).1 = true →
       (next_hop_selection st p).2.1.nextHopId = has_entry st.myId st.routing_table p.dstDroneId)
    ∧ (next_hop_selection st p).2.2 = false := by
  unfold next_hop_selection
  by_cases h : has_entry st.myId st.routing_table p.dstDroneId = st.myId <;> simp [h]

/-- Witness for C4 at a concrete state and packet. -/
theorem next_hop_selection_no_route_iff_witness :
    ((next_hop_selection st0 q1).1 = false ↔
       has_entry st0.myId st0.routing_table q1.dstDroneId = st0.myId)
    ∧ ((next_hop_selection st0 q1).1 = true →
       (next_hop_selection st0 q1).2.1.nextHopId = has_entry st0.myId st0.routing_table q1.dstDroneId)
    ∧ (next_hop_selection st0 q1).2.2 = false :=
  next_hop_selection_no_route_iff st0 q1

/-- Claim C2: every inbound hello is merged exactly once; a periodic hello is
never re-broadcast; a novel immediate hello is re-broadcast exactly once; an
immediate hello whose id is already in the processed-update memo is
re-broadcast zero times. -/
theorem hello_reception_flood_counts (cfg : Config) (sim : Sim) (st : DsdvState)
    (p : DsdvHelloPacket) (src : Nat) :
    countEv isUpdateEv (packet_reception cfg sim st (NetPacket.hello p) src).2.2 = 1
    ∧ (p.type = HelloKind.periodic →
       countEv isBroadcastEv (packet_reception cfg sim st (NetPacket.hello p) src).2.2 = 0)
    ∧ (p.type = HelloKind.immediate → p.packetId ∉ st.processed_hello_packet →
       countEv isBroadcastEv (packet_reception cfg sim st (NetPacket.hello p) src).2.2 = 1)
    ∧ (p.type = HelloKind.immediate → p.packetId ∈ st.processed_hello_packet →
       countEv isBroadcastEv (packet_reception cfg sim st (NetPacket.hello p) src).2.2 = 0) := by
  cases hp : p.type with
  | periodic => simp [packet_reception, hp, countEv, isUpdateEv, isBroadcastEv]
  | immediate =>
    by_cases hmem : p.packetId ∈ st.processed_hello_packet <;>
      simp [packet_reception, hp, hmem, countEv, isUpdateEv, isBroadcastEv]

/-- Witness for C2: one periodic, one novel immediate and one duplicate
immediate reception at concrete states. -/
theorem hello_reception_flood_counts_witness :
    countEv isBroadcastEv (packet_reception cfg0 sim0 st0 (NetPacket.hello pPer) 1).2.2 = 0
    ∧ countEv isBroadcastEv (packet_reception cfg0 sim0 st0 (NetPacket.hello p0) 1).2.2 = 1
    ∧ countEv isBroadcastEv
        (packet_reception cfg0 sim0
          { st0 with processed_hello_packet := [9] } (NetPacket.hello p0) 1).2.2 = 0 :=
  ⟨(hello_reception_flood_counts cfg0 sim0 st0 pPer 1).2.1 rfl,
   (hello_reception_flood_counts cfg0 sim0 st0 p0 1).2.2.1 rfl (by decide),
   (hello_reception_flood_counts cfg0 sim0 { st0 with processed_hello_packet := [9] } p0 1).2.2.2
     rfl (by decide)⟩

/-- Claim C1 as stated is false on the code: at a concrete reception, the
single hello the node re-broadcasts has creation time 7 (the reception time)
and source 2 (the receiving node), while the received advertisement was
created at time 5 by node 1 — the engine rebuilds the advertisement locally
instead of forwarding the same one. -/
theorem immediate_rebroadcast_not_same_packet :
    (broadcastPackets (packet_reception cfg0 sim0 st0 (NetPacket.hello p0) 1).2.2).map
        (fun b => (b.creationTime, b.srcDroneId)) = [(7, 2)]
    ∧ p0.creationTime = 5 ∧ p0.srcDroneId = 1 := by
  decide

/-- Claim C1 (amended): on a novel immediate hello the node records the id in
the processed-update memo and then re-broadcasts a locally rebuilt
advertisement that reuses only the received id — its source is the receiving
node, its creation time is the reception time and its snapshot is the local
post-merge table. -/
theorem immediate_rebroadcast_rebuilt (cfg : Config) (sim : Sim) (st : DsdvState)
    (p : DsdvHelloPacket) (src : Nat)
    (himm : p.type = HelloKind.immediate)
    (hnew : p.packetId ∉ st.processed_hello_packet) :
    ∃ b : DsdvHelloPacket,
      (packet_reception cfg sim st (NetPacket.hello p) src).2.2
        = [Event.updateItem p.packetId, Event.recordProcessed p.packetId, Event.broadcast b]
      ∧ b.packetId = p.packetId
      ∧ b.srcDroneId = st.myId
      ∧ b.creationTime = sim.now
      ∧ b.type = HelloKind.immediate
      ∧ b.routing_table = update_item st.myId st.routing_table p sim.now
      ∧ (packet_reception cfg sim st (NetPacket.hello p) src).2.1.processed_hello_packet
        = st.processed_hello_packet ++ [p.packetId] := by
  refine ⟨{ srcDroneId := st.myId, creationTime := sim.now, packetId := p.packetId,
            packetLength := cfg.HELLO_PACKET_LENGTH, type := HelloKind.immediate,
            routing_table := update_item st.myId st.routing_table p sim.now,
            channelId := st.channel_assign, transmissionMode := 1 }, ?_⟩
  simp [packet_reception, himm, hnew]

/-- Witness for the amended C1 at a concrete reception. -/
theorem immediate_rebroadcast_rebuilt_witness :
    ∃ b : DsdvHelloPacket,
      (packet_reception cfg0 sim0 st0 (NetPacket.hello p0) 1).2.2
        = [Event.updateItem p0.packetId, Event.recordProcessed p0.packetId, Event.broadcast b]
      ∧ b.packetId = p0.packetId
      ∧ b.srcDroneId = st0.myId
      ∧ b.creationTime = sim0.now
      ∧ b.type = HelloKind.immediate
      ∧ b.routing_table = update_item st0.myId st0.routing_table p0 sim0.now
      ∧ (packet_reception cfg0 sim0 st0 (NetPacket.hello p0) 1).2.1.processed_hello_packet
        = st0.processed_hello_packet ++ [p0.packetId] :=
  immediate_rebroadcast_rebuilt cfg0 sim0 st0 p0 1 rfl (by decide)

/-- Claim C9: because the sweep removes elements of the list it is iterating
over, with two consecutive expired packets a single sweep examines and drops
the first one only, and the second — though equally expired — is skipped and
left untouched in the waiting list. -/
theorem sweep_skips_element_after_removal :
    (check_waiting_list_pass { st0 with waiting_list := [q1, q2] } 100).1.waiting_list = [q2]
    ∧ (check_waiting_list_pass { st0 with waiting_list := [q1, q2] } 100).2
        = [(q1, SweepAction.drop)]
    ∧ 100 > q1.creationTime + q1.deadline
    ∧ 100 > q2.creationTime + q2.deadline := by
  decide

/-- Sample data packet addressed to node 2 itself. -/
def pSelf : DataPacket :=
  { q1 with dstDroneId := 2 }

/-- Sample acknowledgement for `q1`, sent by node 1 to node 2. -/
def ackA : AckPacket :=
  { packetId := 3, srcDroneId := 1, dstDroneId := 2, ackPacket := q1, channelId := 0,
    packetLength := 50, ttl := 0 }

/-- Claim C5: for a data packet whose destination is the receiving node,
delivery is credited only when the packet id is not yet in the
delivered-packet memo (at most once under duplicates), while every copy gets
exactly one unicast acknowledgement back to the immediate sender after the
inter-frame gap — withheld only when the node sleeps. -/
theorem data_delivery_dedup_and_ack (cfg : Config) (sim : Sim) (st : DsdvState)
    (p : DataPacket) (src : Nat) (hdst : p.dstDroneId = st.myId) :
    (p.packetId ∈ sim.datapacket_arrived →
       countEv isCreditEv (packet_reception cfg sim st (NetPacket.data p) src).2.2 = 0
       ∧ (packet_reception cfg sim st (NetPacket.data p) src).1.datapacket_arrived
         = sim.datapacket_arrived)
    ∧ (p.packetId ∉ sim.datapacket_arrived →
       countEv isCreditEv (packet_reception cfg sim st (NetPacket.data p) src).2.2 = 1
       ∧ (packet_reception cfg sim st (NetPacket.data p) src).1.datapacket_arrived
         = sim.datapacket_arrived ++ [p.packetId])
    ∧ (st.sleep = false →
       ∃ a : AckPacket,
         (packet_reception cfg sim st (NetPacket.data p) src).2.2
           = (if p.packetId ∈ sim.datapacket_arrived then []
              else [Event.creditDelivery p.packetId])
             ++ [Event.timeout cfg.SIFS_DURATION,
                 Event.unicastAck a src,
                 Event.timeout (a.packetLength * 1000000 / cfg.BIT_RATE),
                 Event.receiveSignal src]
         ∧ a.dstDroneId = src ∧ a.ackPacket = p)
    ∧ (st.sleep = true →
       countEv isAckEv (packet_reception cfg sim st (NetPacket.data p) src).2.2 = 0) := by
  refine ⟨?_, ?_, ?_, ?_⟩ <;> intro h
  · cases hsl : st.sleep <;>
      simp [packet_reception, hdst, h, hsl, countEv, isCreditEv, calculate_metrics]
  · cases hsl : st.sleep <;>
      simp [packet_reception, hdst, h, hsl, countEv, isCreditEv, calculate_metrics]
  · by_cases hmem : p.packetId ∈ sim.datapacket_arrived <;>
      exact ⟨{ packetId := sim.GL_ID_ACK_PACKET + 1, srcDroneId := st.myId, dstDroneId := src,
               ackPacket := p, channelId := p.channelId,
               packetLength := cfg.ACK_PACKET_LENGTH, ttl := 1 },
             by simp [packet_reception, hdst, hmem, h, calculate_metrics], rfl, rfl⟩
  · by_cases hmem : p.packetId ∈ sim.datapacket_arrived <;>
      simp [packet_reception, hdst, hmem, h, countEv, isAckEv, calculate_metrics]

/-- Witness for C5: novel delivery at an awake node is credited once and the
memo records the id. -/
theorem data_delivery_dedup_and_ack_witness :
    countEv isCreditEv (packet_reception cfg0 sim0 st0 (NetPacket.data pSelf) 1).2.2 = 1
    ∧ (packet_reception cfg0 sim0 st0 (NetPacket.data pSelf) 1).1.datapacket_arrived
      = sim0.datapacket_arrived ++ [pSelf.packetId] :=
  (data_delivery_dedup_and_ack cfg0 sim0 st0 pSelf 1 rfl).2.1 (by decide)

/-- Claim C6: a data packet to forward is enqueued and acknowledged (ack
withheld when sleeping) when the outgoing queue is below capacity, and is
dropped completely silently — no enqueue, no acknowledgement, no state
change — when the queue is at capacity. -/
theorem data_forward_queue_policy (cfg : Config) (sim : Sim) (st : DsdvState)
    (p : DataPacket) (src : Nat) (hdst : p.dstDroneId ≠ st.myId) :
    (st.transmitting_queue.length < st.max_queue_size →
       (packet_reception cfg sim st (NetPacket.data p) src).2.1.transmitting_queue
         = st.transmitting_queue ++ [NetPacket.data p]
       ∧ (st.sleep = false →
          ∃ a : AckPacket,
            (packet_reception cfg sim st (NetPacket.data p) src).2.2
              = [Event.enqueueForward p,
                 Event.timeout cfg.SIFS_DURATION,
                 Event.unicastAck a src,
                 Event.timeout (a.packetLength * 1000000 / cfg.BIT_RATE),
                 Event.receiveSignal src]
            ∧ a.dstDroneId = src ∧ a.ackPacket = p)
       ∧ (st.sleep = true →
          (packet_reception cfg sim st (NetPacket.data p) src).2.2
            = [Event.enqueueForward p, Event.timeout cfg.SIFS_DURATION]))
    ∧ (st.max_queue_size ≤ st.transmitting_queue.length →
       packet_reception cfg sim st (NetPacket.data p) src = (sim, st, [])) := by
  constructor
  · intro hq
    refine ⟨?_, ?_, ?_⟩
    · cases hsl : st.sleep <;> simp [packet_reception, hdst, hq, hsl]
    · intro hsl
      exact ⟨{ packetId := sim.GL_ID_ACK_PACKET + 1, srcDroneId := st.myId, dstDroneId := src,
               ackPacket := p, channelId := p.channelId,
               packetLength := cfg.ACK_PACKET_LENGTH, ttl := 1 },
             by simp [packet_reception, hdst, hq, hsl], rfl, rfl⟩
    · intro hsl; simp [packet_reception, hdst, hq, hsl]
  · intro hq
    have hq2 : ¬ st.transmitting_queue.length < st.max_queue_size := Nat.not_lt.mpr hq
    simp [packet_reception, hdst, hq2]

/-- Witness for C6: forwarding at a non-full queue enqueues the copy. -/
theorem data_forward_queue_policy_witness :
    (packet_reception cfg0 sim0 st0 (NetPacket.data q1) 1).2.1.transmitting_queue
      = st0.transmitting_queue ++ [NetPacket.data q1] :=
  ((data_forward_queue_policy cfg0 sim0 st0 q1 1 (by decide)).1 (by decide)).1

/-- Claim C7: an acknowledgement arriving while the matching await-ack
finished-flag is unset and the wait process is untriggered sets the flag
(source order: before the interrupt) and interrupts exactly once; any later
acknowledgement for the same packet id at the resulting state performs no
interrupt at all. -/
theorem ack_interrupts_once (cfg : Config) (sim sim2 : Sim) (st : DsdvState)
    (a a2 : AckPacket) (src src2 : Nat)
    (h0 : st.wait_ack_process_finish (waitAckKey st.myId a.ackPacket.packetId) = 0)
    (h1 : st.wait_ack_process_triggered (waitAckKey st.myId a.ackPacket.packetId) = false)
    (hsame : a2.ackPacket.packetId = a.ackPacket.packetId) :
    (packet_reception cfg sim st (NetPacket.ack a) src).2.2
      = [Event.setFinish (waitAckKey st.myId a.ackPacket.packetId),
         Event.interruptTimer (waitAckKey st.myId a.ackPacket.packetId)]
    ∧ (packet_reception cfg sim st (NetPacket.ack a) src).2.1.wait_ack_process_finish
        (waitAckKey st.myId a.ackPacket.packetId) = 1
    ∧ (packet_reception cfg sim2 (packet_reception cfg sim st (NetPacket.ack a) src).2.1
         (NetPacket.ack a2) src2).2.2 = [] := by
  refine ⟨?_, ?_, ?_⟩
  · simp [packet_reception, h0, h1]
  · simp [packet_reception, h0, h1]
  · simp [packet_reception, h0, h1, hsame]

/-- Witness for C7 at a concrete ack and node state. -/
theorem ack_interrupts_once_witness :
    (packet_reception cfg0 sim0 st0 (NetPacket.ack ackA) 1).2.2
      = [Event.setFinish (waitAckKey st0.myId ackA.ackPacket.packetId),
         Event.interruptTimer (waitAckKey st0.myId ackA.ackPacket.packetId)]
    ∧ (packet_reception cfg0 sim0 st0 (NetPacket.ack ackA) 1).2.1.wait_ack_process_finish
        (waitAckKey st0.myId ackA.ackPacket.packetId) = 1
    ∧ (packet_reception cfg0 sim0 (packet_reception cfg0 sim0 st0 (NetPacket.ack ackA) 1).2.1
         (NetPacket.ack ackA) 1).2.2 = [] :=
  ack_interrupts_once cfg0 sim0 sim0 st0 ackA ackA 1 1 rfl rfl rfl

/-- Claim C10: a data packet delivered to a sleeping destination is still
credited and its id recorded in the delivered-packet memo; sleeping only
suppresses the acknowledgement, which would come after the crediting step
and the inter-frame gap. -/
theorem sleeping_destination_still_credits (cfg : Config) (sim : Sim) (st : DsdvState)
    (p : DataPacket) (src : Nat)
    (hdst : p.dstDroneId = st.myId) (hsleep : st.sleep = true)
    (hnovel : p.packetId ∉ sim.datapacket_arrived) :
    (packet_reception cfg sim st (NetPacket.data p) src).1.datapacket_arrived
      = sim.datapacket_arrived ++ [p.packetId]
    ∧ (packet_reception cfg sim st (NetPacket.data p) src).2.2
      = [Event.creditDelivery p.packetId, Event.timeout cfg.SIFS_DURATION] := by
  constructor <;> simp [packet_reception, hdst, hsleep, hnovel, calculate_metrics]

/-- Witness for C10 at a sleeping node. -/
theorem sleeping_destination_still_credits_witness :
    (packet_reception cfg0 sim0 { st0 with sleep := true } (NetPacket.data pSelf) 1).1.datapacket_arrived
      = sim0.datapacket_arrived ++ [pSelf.packetId]
    ∧ (packet_reception cfg0 sim0 { st0 with sleep := true } (NetPacket.data pSelf) 1).2.2
      = [Event.creditDelivery pSelf.packetId, Event.timeout cfg0.SIFS_DURATION] :=
  sleeping_destination_still_credits cfg0 sim0 { st0 with sleep := true } pSelf 1 rfl rfl
    (by decide)

/-- A list is a permutation of its examined element consed onto the list
with that index erased. -/
theorem perm_get_cons_eraseIdx (l : List DataPacket) :
    ∀ (i : Nat) (h : i < l.length),
      List.Perm l (l.get ⟨i, h⟩ :: l.eraseIdx i) := by
  induction l with
  | nil => intro i h; exact absurd h (by simp)
  | cons x xs ih =>
    intro i h
    cases i with
    | zero => simp
    | succ n =>
      have hn : n < xs.length := by simpa using h
      have h1 : List.Perm (x :: xs) (x :: (xs.get ⟨n, hn⟩ :: xs.eraseIdx n)) :=
        (ih n hn).cons x
      exact h1.trans (List.Perm.swap (xs.get ⟨n, hn⟩) x (xs.eraseIdx n))

/-- Evaluation lemmas for boolean comparisons of sweep actions. -/
@[simp] theorem drop_beq_promote : (SweepAction.drop == SweepAction.promote) = false := rfl

/-- Second evaluation lemma for sweep-action comparisons. -/
@[simp] theorem promote_beq_promote : (SweepAction.promote == SweepAction.promote) = true := rfl

/-- Third evaluation lemma for sweep-action comparisons. -/
@[simp] theorem keep_beq_promote : (SweepAction.keep == SweepAction.promote) = false := rfl

/-- Fourth evaluation lemma for sweep-action comparisons. -/
@[simp] theorem drop_bne_keep : (SweepAction.drop != SweepAction.keep) = true := rfl

/-- Fifth evaluation lemma for sweep-action comparisons. -/
@[simp] theorem promote_bne_keep : (SweepAction.promote != SweepAction.keep) = true := rfl

/-- Sixth evaluation lemma for sweep-action comparisons. -/
@[simp] theorem keep_bne_keep : (SweepAction.keep != SweepAction.keep) = false := rfl

/-- Behaviour of the waiting-list sweep, for every examined packet: the
recorded action is `drop` exactly for an elapsed deadline and `promote`
exactly for a non-elapsed deadline with a successful route lookup; the
transmit queue is extended by exactly the promoted packets (annotated with
their resolved next hop, in examination order); the initial waiting list is
a permutation of the removed (dropped or promoted) packets together with
the final waiting list; the routing table and node id are untouched. -/
theorem sweepAux_spec (now : Nat) :
    ∀ (fuel i : Nat) (st : DsdvState),
      (∀ pa ∈ (sweepAux now fuel st i).2,
        ((pa.2 = SweepAction.drop ↔ now > pa.1.creationTime + pa.1.deadline)
         ∧ (pa.2 = SweepAction.promote ↔
             (¬ now > pa.1.creationTime + pa.1.deadline
              ∧ (next_hop_selection st pa.1).1 = true))))
      ∧ (sweepAux now fuel st i).1.transmitting_queue
        = st.transmitting_queue
          ++ (((sweepAux now fuel st i).2.filter (fun pa => pa.2 == SweepAction.promote)).map
              (fun pa => NetPacket.data (next_hop_selection st pa.1).2.1))
      ∧ List.Perm st.waiting_list
          ((((sweepAux now fuel st i).2.filter (fun pa => pa.2 != SweepAction.keep)).map
              Prod.fst)
            ++ (sweepAux now fuel st i).1.waiting_list)
      ∧ (sweepAux now fuel st i).1.routing_table = st.routing_table
      ∧ (sweepAux now fuel st i).1.myId = st.myId := by
  intro fuel
  induction fuel with
  | zero =>
    intro i st
    exact ⟨by simp [sweepAux], by simp [sweepAux], by simp [sweepAux], rfl, rfl⟩
  | succ n ih =>
    intro i st
    by_cases h : i < st.waiting_list.length
    · by_cases hexp : now > st.waiting_list[i].creationTime + st.waiting_list[i].deadline
      · obtain ⟨ih1, ih2, ih3, ih4, ih5⟩ :=
          ih (i + 1) { st with waiting_list := st.waiting_list.eraseIdx i }
        have heq : sweepAux now (n + 1) st i
            = ((sweepAux now n { st with waiting_list := st.waiting_list.eraseIdx i } (i + 1)).1,
               (st.waiting_list[i], SweepAction.drop) ::
                 (sweepAux now n { st with waiting_list := st.waiting_list.eraseIdx i } (i + 1)).2) := by
          simp only [sweepAux, List.get_eq_getElem]
          rw [dif_pos h, if_pos hexp]
        rw [heq]
        refine ⟨?_, ?_, ?_, ih4, ih5⟩
        · intro pa hpa
          rcases List.mem_cons.mp hpa with hhd | htl
          · subst hhd
            exact ⟨by simp [hexp], by simp [hexp]⟩
          · exact ih1 pa htl
        · have hf : List.filter (fun pa => pa.2 == SweepAction.promote)
              ((st.waiting_list[i], SweepAction.drop) ::
                (sweepAux now n { st with waiting_list := st.waiting_list.eraseIdx i } (i + 1)).2)
              = List.filter (fun pa => pa.2 == SweepAction.promote)
                  (sweepAux now n { st with waiting_list := st.waiting_list.eraseIdx i } (i + 1)).2 := by
            simp [List.filter_cons]
          rw [hf]
          exact ih2
        · have hf : List.filter (fun pa => pa.2 != SweepAction.keep)
              ((st.waiting_list[i], SweepAction.drop) ::
                (sweepAux now n { st with waiting_list := st.waiting_list.eraseIdx i } (i + 1)).2)
              = (st.waiting_list[i], SweepAction.drop) ::
                  List.filter (fun pa => pa.2 != SweepAction.keep)
                    (sweepAux now n { st with waiting_list := st.waiting_list.eraseIdx i } (i + 1)).2 := by
            simp [List.filter_cons]
          rw [hf]
          simp only [List.map_cons, List.cons_append]
          have hperm : List.Perm st.waiting_list
              (st.waiting_list[i] :: st.waiting_list.eraseIdx i) :=
            perm_get_cons_eraseIdx st.waiting_list i h
          have ih3x : List.Perm (st.waiting_list.eraseIdx i)
              ((List.filter (fun pa => pa.2 != SweepAction.keep)
                  (sweepAux now n { st with waiting_list := st.waiting_list.eraseIdx i } (i + 1)).2).map
                  Prod.fst
                ++ (sweepAux now n { st with waiting_list := st.waiting_list.eraseIdx i } (i + 1)).1.waiting_list) :=
            ih3
          exact hperm.trans (ih3x.cons st.waiting_list[i])
      · by_cases hsel : (next_hop_selection st st.waiting_list[i]).1 = true
        · obtain ⟨ih1, ih2, ih3, ih4, ih5⟩ :=
            ih (i + 1)
              { st with
                transmitting_queue := st.transmitting_queue
                  ++ [NetPacket.data (next_hop_selection st st.waiting_list[i]).2.1],
                waiting_list := st.waiting_list.eraseIdx i }
          have heq : sweepAux now (n + 1) st i
              = ((sweepAux now n
                    { st with
                      transmitting_queue := st.transmitting_queue
                        ++ [NetPacket.data (next_hop_selection st st.waiting_list[i]).2.1],
                      waiting_list := st.waiting_list.eraseIdx i } (i + 1)).1,
                 (st.waiting_list[i], SweepAction.promote) ::
                   (sweepAux now n
                      { st with
                        transmitting_queue := st.transmitting_queue
                          ++ [NetPacket.data (next_hop_selection st st.waiting_list[i]).2.1],
                        waiting_list := st.waiting_list.eraseIdx i } (i + 1)).2) := by
            simp only [sweepAux, List.get_eq_getElem]
            rw [dif_pos h, if_neg hexp, if_pos hsel]
          rw [heq]
          refine ⟨?_, ?_, ?_, ih4, ih5⟩
          · intro pa hpa
            rcases List.mem_cons.mp hpa with hhd | htl
            · subst hhd
              exact ⟨by simp [hexp], by simp [hexp, hsel]⟩
            · exact ih1 pa htl
          · have hf : List.filter (fun pa => pa.2 == SweepAction.promote)
                ((st.waiting_list[i], SweepAction.promote) ::
                  (sweepAux now n
                     { st with
                       transmitting_queue := st.transmitting_queue
                         ++ [NetPacket.data (next_hop_selection st st.waiting_list[i]).2.1],
                       waiting_list := st.waiting_list.eraseIdx i } (i + 1)).2)
                = (st.waiting_list[i], SweepAction.promote) ::
                    List.filter (fun pa => pa.2 == SweepAction.promote)
                      (sweepAux now n
                         { st with
                           transmitting_queue := st.transmitting_queue
                             ++ [NetPacket.data (next_hop_selection st st.waiting_list[i]).2.1],
                           waiting_list := st.waiting_list.eraseIdx i } (i + 1)).2 := by
              simp [List.filter_cons]
            rw [hf]
            have ih2x : (sweepAux now n
                  { st with
                    transmitting_queue := st.transmitting_queue
                      ++ [NetPacket.data (next_hop_selection st st.waiting_list[i]).2.1],
                    waiting_list := st.waiting_list.eraseIdx i } (i + 1)).1.transmitting_queue
                = (st.transmitting_queue
                    ++ [NetPacket.data (next_hop_selection st st.waiting_list[i]).2.1])
                  ++ (List.filter (fun pa => pa.2 == SweepAction.promote)
                        (sweepAux now n
                           { st with
                             transmitting_queue := st.transmitting_queue
                               ++ [NetPacket.data (next_hop_selection st st.waiting_list[i]).2.1],
                             waiting_list := st.waiting_list.eraseIdx i } (i + 1)).2).map
                      (fun pa => NetPacket.data (next_hop_selection st pa.1).2.1) :=
              ih2
            rw [ih2x]
            simp [List.append_assoc]
          · have hf : List.filter (fun pa => pa.2 != SweepAction.keep)
                ((st.waiting_list[i], SweepAction.promote) ::
                  (sweepAux now n
                     { st with
                       transmitting_queue := st.transmitting_queue
                         ++ [NetPacket.data (next_hop_selection st st.waiting_list[i]).2.1],
                       waiting_list := st.waiting_list.eraseIdx i } (i + 1)).2)
                = (st.waiting_list[i], SweepAction.promote) ::
                    List.filter (fun pa => pa.2 != SweepAction.keep)
                      (sweepAux now n
                         { st with
                           transmitting_queue := st.transmitting_queue
                             ++ [NetPacket.data (next_hop_selection st st.waiting_list[i]).2.1],
                           waiting_list := st.waiting_list.eraseIdx i } (i + 1)).2 := by
              simp [List.filter_cons]
            rw [hf]
            simp only [List.map_cons, List.cons_append]
            have hperm : List.Perm st.waiting_list
                (st.waiting_list[i] :: st.waiting_list.eraseIdx i) :=
              perm_get_cons_eraseIdx st.waiting_list i h
            have ih3x : List.Perm (st.waiting_list.eraseIdx i)
                ((List.filter (fun pa => pa.2 != SweepAction.keep)
                    (sweepAux now n
                       { st with
                         transmitting_queue := st.transmitting_queue
                           ++ [NetPacket.data (next_hop_selection st st.waiting_list[i]).2.1],
                         waiting_list := st.waiting_list.eraseIdx i } (i + 1)).2).map
                    Prod.fst
                  ++ (sweepAux now n
                       { st with
                         transmitting_queue := st.transmitting_queue
                           ++ [NetPacket.data (next_hop_selection st st.waiting_list[i]).2.1],
                         waiting_list := st.waiting_list.eraseIdx i } (i + 1)).1.waiting_list) :=
              ih3
            exact hperm.trans (ih3x.cons st.waiting_list[i])
        · obtain ⟨ih1, ih2, ih3, ih4, ih5⟩ := ih (i + 1) st
          have heq : sweepAux now (n + 1) st i
              = ((sweepAux now n st (i + 1)).1,
                 (st.waiting_list[i], SweepAction.keep) :: (sweepAux now n st (i + 1)).2) := by
            simp only [sweepAux, List.get_eq_getElem]
            rw [dif_pos h, if_neg hexp, if_neg hsel]
          rw [heq]
          refine ⟨?_, ?_, ?_, ih4, ih5⟩
          · intro pa hpa
            rcases List.mem_cons.mp hpa with hhd | htl
            · subst hhd
              exact ⟨by simp [hexp], by simp [hexp, hsel]⟩
            · exact ih1 pa htl
          · have hf : List.filter (fun pa => pa.2 == SweepAction.promote)
                ((st.waiting_list[i], SweepAction.keep) :: (sweepAux now n st (i + 1)).2)
                = List.filter (fun pa => pa.2 == SweepAction.promote)
                    (sweepAux now n st (i + 1)).2 := by
              simp [List.filter_cons]
            rw [hf]
            exact ih2
          · have hf : List.filter (fun pa => pa.2 != SweepAction.keep)
                ((st.waiting_list[i], SweepAction.keep) :: (sweepAux now n st (i + 1)).2)
                = List.filter (fun pa => pa.2 != SweepAction.keep)
                    (sweepAux now n st (i + 1)).2 := by
              simp [List.filter_cons]
            rw [hf]
            exact ih3
    · have heq : sweepAux now (n + 1) st i = (st, []) := by
        simp only [sweepAux]
        rw [dif_neg h]
      rw [heq]
      exact ⟨by simp, by simp, by simp, rfl, rfl⟩

/-- Claim C8: during an awake sweep, every examined packet with an elapsed
deadline is dropped (removed, never promoted to the transmit queue, whatever
the routing table says); an examined non-expired packet is promoted and
removed exactly when route lookup succeeds, and left in place otherwise;
the transmit queue gains exactly the promoted packets. -/
theorem waiting_list_sweep_policy (st : DsdvState) (now : Nat) (hawake : st.sleep = false) :
    (∀ pa ∈ (check_waiting_list_pass st now).2,
      ((pa.2 = SweepAction.drop ↔ now > pa.1.creationTime + pa.1.deadline)
       ∧ (pa.2 = SweepAction.promote ↔
           (¬ now > pa.1.creationTime + pa.1.deadline
            ∧ (next_hop_selection st pa.1).1 = true))))
    ∧ (check_waiting_list_pass st now).1.transmitting_queue
      = st.transmitting_queue
        ++ (((check_waiting_list_pass st now).2.filter (fun pa => pa.2 == SweepAction.promote)).map
            (fun pa => NetPacket.data (next_hop_selection st pa.1).2.1))
    ∧ List.Perm st.waiting_list
        ((((check_waiting_list_pass st now).2.filter (fun pa => pa.2 != SweepAction.keep)).map
            Prod.fst)
          ++ (check_waiting_list_pass st now).1.waiting_list) := by
  have h := sweepAux_spec now st.waiting_list.length 0 st
  have hpass : check_waiting_list_pass st now = sweepAux now st.waiting_list.length st 0 := by
    simp [check_waiting_list_pass, hawake]
  rw [hpass]
  exact ⟨h.1, h.2.1, h.2.2.1⟩

/-- Witness for C8: a concrete sweep at time 100 over two expired packets. -/
theorem waiting_list_sweep_policy_witness :
    List.Perm ({ st0 with waiting_list := [q1, q2] } : DsdvState).waiting_list
      ((((check_waiting_list_pass { st0 with waiting_list := [q1, q2] } 100).2.filter
            (fun pa => pa.2 != SweepAction.keep)).map Prod.fst)
        ++ (check_waiting_list_pass { st0 with waiting_list := [q1, q2] } 100).1.waiting_list) :=
  (waiting_list_sweep_policy { st0 with waiting_list := [q1, q2] } 100 rfl).2.2

/-- Updating a key leaves its lookup mapped through the update function. -/
theorem alookup_aupdate_self (k : Nat) (f : RTEntry → RTEntry) (l : RoutingTable) :
    alookup k (aupdate k f l) = (alookup k l).map f := by
  induction l with
  | nil => rfl
  | cons kv rest ih =>
    by_cases hk : kv.1 = k <;> simp [aupdate, alookup, hk, ih]

/-- Updating one key does not change the lookup of another. -/
theorem alookup_aupdate_ne (k k2 : Nat) (f : RTEntry → RTEntry) (l : RoutingTable)
    (hne : k2 ≠ k) : alookup k (aupdate k2 f l) = alookup k l := by
  induction l with
  | nil => rfl
  | cons kv rest ih =>
    by_cases hk : kv.1 = k2
    · simp [aupdate, alookup, hk, hne]
    · by_cases hk2 : kv.1 = k <;>
        simp [aupdate, alookup, hk, hk2, ih, hne, Ne.symm hne]

/-- Appending an entry under another key does not change a lookup. -/
theorem alookup_append_ne (k d : Nat) (e : RTEntry) (l : RoutingTable) (hne : d ≠ k) :
    alookup k (l ++ [(d, e)]) = alookup k l := by
  induction l with
  | nil => simp [alookup, hne]
  | cons kv rest ih =>
    by_cases hk : kv.1 = k <;> simp [alookup, hk, ih]

/-- Merging one remote entry never changes the node's own entry. -/
theorem alookup_mergeEntry (myId srcId now : Nat) (table : RoutingTable)
    (kv : Nat × RTEntry) :
    alookup myId (mergeEntry myId srcId now table kv) = alookup myId table := by
  unfold mergeEntry
  by_cases hk : kv.1 = myId
  · simp [hk]
  · simp only [hk, if_false]
    cases hl : alookup kv.1 table with
    | none => simp [hl, alookup_append_ne myId kv.1 _ table hk]
    | some cur =>
      by_cases hseq : cur.seqNum < kv.2.seqNum <;>
        simp [hl, hseq, alookup_aupdate_ne myId kv.1 _ table hk]

/-- Folding the merge over a whole snapshot never changes the own entry. -/
theorem alookup_foldl_mergeEntry (myId srcId now : Nat) (snap : List (Nat × RTEntry)) :
    ∀ table : RoutingTable,
      alookup myId (snap.foldl (mergeEntry myId srcId now) table) = alookup myId table := by
  induction snap with
  | nil => intro table; rfl
  | cons kv rest ih =>
    intro table
    rw [List.foldl_cons, ih, alookup_mergeEntry]

/-- `update_item` never changes the node's own entry. -/
theorem alookup_update_item (myId : Nat) (table : RoutingTable) (pkt : DsdvHelloPacket)
    (now : Nat) :
    alookup myId (update_item myId table pkt now) = alookup myId table :=
  alookup_foldl_mergeEntry myId pkt.srcDroneId now pkt.routing_table table

/-- Purging one entry preserves its key. -/
theorem purgeOne_key (cfg : Config) (myId now : Nat) (kv : Nat × RTEntry) :
    ((purgeOne cfg myId now kv).1).1 = kv.1 := by
  unfold purgeOne
  split <;> rfl

/-- Purging never touches the entry stored under the node's own key. -/
theorem purgeOne_own (cfg : Config) (myId now : Nat) (kv : Nat × RTEntry)
    (h : kv.1 = myId) : (purgeOne cfg myId now kv).1 = kv := by
  simp [purgeOne, h]

/-- The purge pass never changes the node's own entry. -/
theorem alookup_purge (cfg : Config) (myId now : Nat) (table : RoutingTable) :
    alookup myId (purge cfg myId now table).1 = alookup myId table := by
  unfold purge
  induction table with
  | nil => rfl
  | cons kv rest ih =>
    simp only [List.map_cons]
    by_cases hk : kv.1 = myId
    · rw [purgeOne_own cfg myId now kv hk]
      simp [alookup, hk, ih]
    · have hkey : ((purgeOne cfg myId now kv).1).1 = kv.1 := purgeOne_key cfg myId now kv
      simp only [alookup, hkey, hk, if_false]
      simpa using ih

/-- `packet_reception` preserves the node's identifier and its own
routing-table entry, whatever the inbound packet. -/
theorem packet_reception_preserves_own (cfg : Config) (sim : Sim) (st : DsdvState)
    (pkt : NetPacket) (src : Nat) :
    (packet_reception cfg sim st pkt src).2.1.myId = st.myId
    ∧ alookup st.myId (packet_reception cfg sim st pkt src).2.1.routing_table
      = alookup st.myId st.routing_table := by
  cases pkt with
  | hello p =>
    cases hp : p.type with
    | periodic => simp [packet_reception, hp, alookup_update_item]
    | immediate =>
      by_cases hmem : p.packetId ∈ st.processed_hello_packet <;>
        simp [packet_reception, hp, hmem, alookup_update_item]
  | data p =>
    by_cases hdst : p.dstDroneId = st.myId
    · cases hsl : st.sleep <;>
        by_cases hmem : p.packetId ∈ sim.datapacket_arrived <;>
          simp [packet_reception, hdst, hsl, hmem, calculate_metrics]
    · by_cases hq : st.transmitting_queue.length < st.max_queue_size
      · cases hsl : st.sleep <;> simp [packet_reception, hdst, hq, hsl]
      · simp [packet_reception, hdst, hq]
  | ack p =>
    by_cases h0 : st.wait_ack_process_finish (waitAckKey st.myId p.ackPacket.packetId) = 0
    · by_cases h1 : st.wait_ack_process_triggered (waitAckKey st.myId p.ackPacket.packetId)
          = false <;>
        simp [packet_reception, h0, h1]
    · simp [packet_reception, h0]
  | vf p =>
    cases hm : p.msgType <;> simp [packet_reception, hm]

/-- Every engine operation preserves the node identifier, and its effect on
the own routing-table entry is either nothing or exactly the +2 sequence
bump of a periodic broadcast. -/
theorem applyOp_preserves_own (cfg : Config) (s : Sim × DsdvState) (op : Op) :
    (applyOp cfg s op).2.myId = s.2.myId
    ∧ (alookup s.2.myId (applyOp cfg s op).2.routing_table
        = alookup s.2.myId s.2.routing_table
       ∨ alookup s.2.myId (applyOp cfg s op).2.routing_table
        = (alookup s.2.myId s.2.routing_table).map
            (fun e => { e with seqNum := e.seqNum + 2 })) := by
  cases op with
  | broadcastHello =>
    refine ⟨rfl, Or.inr ?_⟩
    simp [applyOp, broadcast_hello_packet, alookup_aupdate_self]
  | detectBroken =>
    by_cases hf : (purge cfg s.2.myId s.1.now s.2.routing_table).2 = true
    · exact ⟨by simp [applyOp, detect_broken_link_step, hf],
             Or.inl (by simp [applyOp, detect_broken_link_step, hf, alookup_purge])⟩
    · exact ⟨by simp [applyOp, detect_broken_link_step, hf],
             Or.inl (by simp [applyOp, detect_broken_link_step, hf, alookup_purge])⟩
  | recv p src =>
    exact ⟨(packet_reception_preserves_own cfg s.1 s.2 p src).1,
           Or.inl (packet_reception_preserves_own cfg s.1 s.2 p src).2⟩
  | sweep =>
    by_cases hsl : s.2.sleep = true
    · exact ⟨by simp [applyOp, check_waiting_list_pass, hsl],
             Or.inl (by simp [applyOp, check_waiting_list_pass, hsl])⟩
    · have hs := sweepAux_spec s.1.now s.2.waiting_list.length 0 s.2
      have hpass : check_waiting_list_pass s.2 s.1.now
          = sweepAux s.1.now s.2.waiting_list.length s.2 0 := by
        simp [check_waiting_list_pass, hsl]
      refine ⟨?_, Or.inl ?_⟩
      · simp only [applyOp, hpass]
        exact hs.2.2.2.2
      · simp only [applyOp, hpass]
        rw [hs.2.2.2.1]
  | tick d => exact ⟨rfl, Or.inl rfl⟩

/-- Along any sequence of engine operations, the own entry stays present,
its sequence number stays even and it never decreases. -/
theorem runOps_own_invariant (cfg : Config) (ops : List Op) :
    ∀ s : Sim × DsdvState,
      (ownEntry s.2).isSome = true → ownSeq s.2 % 2 = 0 →
      (ownEntry (runOps cfg s ops).2).isSome = true
      ∧ ownSeq (runOps cfg s ops).2 % 2 = 0
      ∧ ownSeq s.2 ≤ ownSeq (runOps cfg s ops).2 := by
  induction ops with
  | nil => intro s h1 h2; exact ⟨h1, h2, Nat.le_refl _⟩
  | cons op rest ih =>
    intro s h1 h2
    obtain ⟨hmy, hlk⟩ := applyOp_preserves_own cfg s op
    obtain ⟨e, he⟩ := Option.isSome_iff_exists.mp h1
    have he2 : alookup s.2.myId s.2.routing_table = some e := he
    have hseq : ownSeq s.2 = e.seqNum := by simp [ownSeq, ownEntry, he2]
    have hown : ownEntry (applyOp cfg s op).2
        = alookup s.2.myId (applyOp cfg s op).2.routing_table := by
      unfold ownEntry
      rw [hmy]
    have hrun : runOps cfg s (op :: rest) = runOps cfg (applyOp cfg s op) rest := rfl
    cases hlk with
    | inl hsame =>
      have hpres : ownEntry (applyOp cfg s op).2 = some e := by
        rw [hown, hsame, he2]
      have hseq2 : ownSeq (applyOp cfg s op).2 = e.seqNum := by simp [ownSeq, hpres]
      have hrec := ih (applyOp cfg s op) (by simp [hpres])
        (by rw [hseq2]; rw [hseq] at h2; exact h2)
      rw [hrun]
      refine ⟨hrec.1, hrec.2.1, ?_⟩
      calc ownSeq s.2 = e.seqNum := hseq
        _ = ownSeq (applyOp cfg s op).2 := hseq2.symm
        _ ≤ ownSeq (runOps cfg (applyOp cfg s op) rest).2 := hrec.2.2
    | inr hbump =>
      have hpres : ownEntry (applyOp cfg s op).2 = some { e with seqNum := e.seqNum + 2 } := by
        rw [hown, hbump, he2]
        rfl
      have hseq2 : ownSeq (applyOp cfg s op).2 = e.seqNum + 2 := by simp [ownSeq, hpres]
      have heven2 : ownSeq (applyOp cfg s op).2 % 2 = 0 := by
        rw [hseq2]
        rw [hseq] at h2
        omega
      have hrec := ih (applyOp cfg s op) (by simp [hpres]) heven2
      rw [hrun]
      refine ⟨hrec.1, hrec.2.1, ?_⟩
      have hle : ownSeq s.2 ≤ ownSeq (applyOp cfg s op).2 := by
        rw [hseq, hseq2]
        omega
      exact Nat.le_trans hle hrec.2.2

/-- Claim C3: at any node state whose own entry exists with an even sequence
number (as the collaborator's constructor seeds it), a periodic broadcast
increases the own sequence number by exactly 2 and leaves it even, and
across any sequence of engine operations the own sequence number never
decreases and stays even — so it is even after every periodic broadcast of
every run. -/
theorem own_sequence_number_invariant (cfg : Config) (sim : Sim) (st : DsdvState)
    (hpres : (ownEntry st).isSome = true) (heven : ownSeq st % 2 = 0) :
    ownSeq (broadcast_hello_packet cfg sim st).2 = ownSeq st + 2
    ∧ ownSeq (broadcast_hello_packet cfg sim st).2 % 2 = 0
    ∧ (∀ ops : List Op,
        ownSeq st ≤ ownSeq (runOps cfg (sim, st) ops).2
        ∧ ownSeq (runOps cfg (sim, st) ops).2 % 2 = 0) := by
  obtain ⟨e, he⟩ := Option.isSome_iff_exists.mp hpres
  have he2 : alookup st.myId st.routing_table = some e := he
  have hs : ownSeq st = e.seqNum := by simp [ownSeq, ownEntry, he2]
  have hb : ownSeq (broadcast_hello_packet cfg sim st).2 = e.seqNum + 2 := by
    simp [ownSeq, ownEntry, broadcast_hello_packet, alookup_aupdate_self, he2]
  refine ⟨by rw [hb, hs], by rw [hb]; rw [hs] at heven; omega, ?_⟩
  intro ops
  have hrec := runOps_own_invariant cfg ops (sim, st) hpres heven
  exact ⟨hrec.2.2, hrec.2.1⟩

/-- Witness for C3: node 2 with its freshly seeded table, one broadcast and
a concrete run. -/
theorem own_sequence_number_invariant_witness :
    ownSeq (broadcast_hello_packet cfg0 sim0 st0).2 = ownSeq st0 + 2
    ∧ ownSeq (broadcast_hello_packet cfg0 sim0 st0).2 % 2 = 0
    ∧ (ownSeq st0 ≤ ownSeq (runOps cfg0 (sim0, st0)
          [Op.broadcastHello, Op.tick 5, Op.broadcastHello]).2
       ∧ ownSeq (runOps cfg0 (sim0, st0)
          [Op.broadcastHello, Op.tick 5, Op.broadcastHello]).2 % 2 = 0) :=
  ⟨(own_sequence_number_invariant cfg0 sim0 st0 (by decide) (by decide)).1,
   (own_sequence_number_invariant cfg0 sim0 st0 (by decide) (by decide)).2.1,
   (own_sequence_number_invariant cfg0 sim0 st0 (by decide) (by decide)).2.2
     [Op.broadcastHello, Op.tick 5, Op.broadcastHello]⟩

end Dsdv
